import Mathlib

/-!
Shallow embedding of the SPC engine of `src/Base_Code/Fitness_App.py`:
the I-MR control-limit computation `plot_imr_combined` (lines 37-72), the
capability computation `calculate_capability` (lines 74-91), and the
module-level analysis guard (lines 129-139).  Dates are modelled as
naturals; measured values as rationals for the exact I-MR arithmetic and
as reals for the capability computation, which takes a square root.
-/

namespace FitnessApp

/-- An observation: a (date, value) row of the `daily_stats` table. -/
abbrev Obs := ℕ × ℚ

/-- Date comparison used by `df.sort_values('date')`. -/
def dateLE (a b : Obs) : Prop := a.1 ≤ b.1

instance : DecidableRel dateLE := fun a b => inferInstanceAs (Decidable (a.1 ≤ b.1))

instance : IsTotal Obs dateLE := ⟨fun a b => Nat.le_total a.1 b.1⟩

instance : IsTrans Obs dateLE := ⟨fun _ _ _ h1 h2 => Nat.le_trans h1 h2⟩

/-- Strict date order; used to show sorting distinct-date rows is unique. -/
def dateLT (a b : Obs) : Prop := a.1 < b.1

instance : IsAntisymm Obs dateLT :=
  ⟨fun a _ h1 h2 => absurd (Nat.lt_trans h1 h2) (Nat.lt_irrefl a.1)⟩

/-- Embeds `df.sort_values('date')` (line 39). -/
def sortByDate (l : List Obs) : List Obs := List.insertionSort dateLE l

/-- Embeds `pandas.Series.mean` on rationals: sum over length. -/
def qmean (l : List ℚ) : ℚ := l.sum / l.length

/-- Tail of `df[column].diff().abs()` (line 44): the entries after the first,
each the absolute difference with its predecessor. -/
def mrAux (prev : ℚ) : List ℚ → List (Option ℚ)
  | [] => []
  | y :: ys => some |y - prev| :: mrAux y ys

/-- Embeds `df[column].diff().abs()` (line 44): the first entry is NaN
(modelled as `none`); entry `i ≥ 1` is `|value[i] - value[i-1]|`. -/
def movingRanges : List ℚ → List (Option ℚ)
  | [] => []
  | x :: xs => none :: mrAux x xs

/-- The statistical output of `plot_imr_combined` (lines 37-50): the numbers
drawn on the two charts. -/
structure ControlLimitSet where
  center : ℚ
  mrList : List (Option ℚ)
  mrBar : ℚ
  ucl_i : ℚ
  lcl_i : ℚ
  ucl_mr : ℚ
  deriving DecidableEq

/-- Embeds the statistics of `plot_imr_combined` (lines 37-50): sort by date,
mean of the values, moving ranges, mean of the moving ranges (`pandas`
`mean` skips the leading NaN, hence `reduceOption`), control limits with the
constants 2.66 and 3.267, the lower individual limit clamped by
`max(0, ...)` (line 49). -/
def plot_imr_combined (df : List Obs) : ControlLimitSet :=
  let sorted := sortByDate df
  let vals := sorted.map Prod.snd
  let x_bar := qmean vals
  let mr := movingRanges vals
  let mr_bar := qmean mr.reduceOption
  { center := x_bar
    mrList := mr
    mrBar := mr_bar
    ucl_i := x_bar + (266 / 100) * mr_bar
    lcl_i := max 0 (x_bar - (266 / 100) * mr_bar)
    ucl_mr := mr_bar * (3267 / 1000) }

/-- Embeds the module-level analysis guard (lines 129-139):
`if not df_stats.empty and len(df_stats) >= 2:` followed by
`df_sorted = df_stats.sort_values('date')` and the call
`plot_imr_combined(df_sorted, 'weight', ...)`. -/
def weight_analysis (df_stats : List Obs) : Option ControlLimitSet :=
  if df_stats ≠ [] ∧ 2 ≤ df_stats.length then
    some (plot_imr_combined (sortByDate df_stats))
  else none

/-- Embeds `pandas.Series.mean` on reals. -/
noncomputable def rmean (l : List ℝ) : ℝ := l.sum / l.length

/-- Embeds `pandas.Series.std()` with its default `ddof=1`: sum of squared
deviations from the mean, divided by `n - 1`. -/
noncomputable def sampleVar (l : List ℝ) : ℝ :=
  (l.map (fun x => (x - rmean l) ^ 2)).sum / ((l.length : ℝ) - 1)

/-- Sample standard deviation, the square root of `sampleVar`. -/
noncomputable def sampleStd (l : List ℝ) : ℝ := Real.sqrt (sampleVar l)

/-- Embeds Python `round(x, 2)`: round `100 * x` to the nearest integer and
divide by 100.  (Ties, which never arise at the inputs evaluated here, round
half up rather than half to even.) -/
noncomputable def round2 (x : ℝ) : ℝ := ((round (x * 100) : ℤ) : ℝ) / 100

open Classical in
/-- Embeds `calculate_capability` (lines 74-91).  The Python function returns
the pair `(None, None)` when there are fewer than 5 rows, `(0, 0)` when the
sample standard deviation is zero, and otherwise the rounded `(Cp, Cpk)`.
There is no check of the specification limits `lsl`, `usl`. -/
noncomputable def calculate_capability (df : List ℝ) (lsl usl : ℝ) :
    Option ℝ × Option ℝ :=
  if df.length < 5 then (none, none)
  else
    let mean := rmean df
    let sigma := sampleStd df
    if sigma = 0 then (some 0, some 0)
    else
      let cp := (usl - lsl) / (6 * sigma)
      let cpu := (usl - mean) / (3 * sigma)
      let cpl := (mean - lsl) / (3 * sigma)
      let cpk := min cpu cpl
      (some (round2 cp), some (round2 cpk))

/-- The worked-example series of the spec, as dated observations. -/
def exObs : List Obs := [(1, 100), (2, 102), (3, 101), (4, 105), (5, 103)]

/-- The worked-example values, as reals for the capability computation. -/
noncomputable def exVals : List ℝ := [100, 102, 101, 105, 103]

/-- A 4-point series for the insufficient-data capability example. -/
noncomputable def ex4 : List ℝ := [150, 152, 149, 151]

/-- The zero-variance capability example series. -/
noncomputable def ex150 : List ℝ := [150, 150, 150, 150, 150]

/-- A singleton series, the degenerate I-MR example. -/
def ex1 : List Obs := [(1, 150)]

/-- A two-point series of a metric that goes negative, such as a net energy
balance. -/
def exNeg : List Obs := [(1, -10), (2, -12)]

/-- A two-point series and a permutation of it, for the order-invariance
example. -/
def s7 : List Obs := [(1, 100), (2, 102)]

/-- The reversal of `s7`. -/
def t7 : List Obs := [(2, 102), (1, 100)]

/-- A pandas data frame as `plot_imr_combined` sees it: its rows plus the
derived MR column once line 44 has run. -/
structure PandasFrame where
  rows : List Obs
  mrCol : Option (List (Option ℚ))

/-- A heap of data-frame objects, indexed by address. -/
def Heap := ℕ → Option PandasFrame

/-- Update one address of a heap. -/
def heapUpdate (h : Heap) (a : ℕ) (v : PandasFrame) : Heap :=
  fun b => if b = a then some v else h b

/-- Embeds the execution of `plot_imr_combined` (lines 37-50) against caller
state.  The caller's frame lives at `callerAddr`.  The statement
`df = df.sort_values('date')` (line 39) allocates a copy at the fresh
address `freshAddr` and rebinds the local name `df` to it;
`df['MR'] = df[column].diff().abs()` (line 44) then mutates the object at
`freshAddr` in place.  Returns the final heap with the computed chart
numbers. -/
def plot_imr_run (h0 : Heap) (callerAddr freshAddr : ℕ) : Heap × ControlLimitSet :=
  let df0 := (h0 callerAddr).getD ⟨[], none⟩
  let h1 := heapUpdate h0 freshAddr ⟨sortByDate df0.rows, df0.mrCol⟩
  let dfs := (h1 freshAddr).getD ⟨[], none⟩
  let h2 := heapUpdate h1 freshAddr
    ⟨dfs.rows, some (movingRanges (dfs.rows.map Prod.snd))⟩
  (h2, plot_imr_combined df0.rows)

/-- A one-object heap holding the worked-example series at address 0. -/
def heap8 : Heap := fun a => if a = 0 then some ⟨exObs, none⟩ else none

/-- The tail of the MR column has one entry per remaining value. -/
theorem mrAux_length (p : ℚ) (l : List ℚ) : (mrAux p l).length = l.length := by
  induction l generalizing p with
  | nil => rfl
  | cons y ys ih => simp [mrAux, ih]

/-- The MR column has the same length as the value column. -/
theorem movingRanges_length (l : List ℚ) : (movingRanges l).length = l.length := by
  cases l with
  | nil => rfl
  | cons x xs => simp [movingRanges, mrAux_length]

/-- The tail of the MR column holds no NaN entry. -/
theorem mrAux_reduceOption (p : ℚ) (l : List ℚ) :
    (mrAux p l).reduceOption.length = l.length := by
  induction l generalizing p with
  | nil => rfl
  | cons y ys ih =>
    simpa [mrAux, List.reduceOption, List.filterMap_cons] using ih y

/-- The MR column holds exactly `n - 1` defined moving ranges. -/
theorem movingRanges_reduceOption_length (l : List ℚ) :
    (movingRanges l).reduceOption.length = l.length - 1 := by
  cases l with
  | nil => rfl
  | cons x xs =>
    simp [movingRanges, List.reduceOption, List.filterMap_cons]
    simpa [List.reduceOption] using mrAux_reduceOption x xs

/-- Entry `i` of the tail of the MR column is the absolute difference of
value `i` and its predecessor in the column extended by the seed. -/
theorem mrAux_get (l : List ℚ) (p : ℚ) (i : ℕ) (h : i < l.length) :
    (mrAux p l)[i]? =
      some (some |l.get ⟨i, h⟩ - (p :: l).get ⟨i, Nat.lt_succ_of_lt h⟩|) := by
  induction l generalizing p i with
  | nil => exact absurd h (Nat.not_lt_zero i)
  | cons y ys ih =>
    cases i with
    | zero => simp [mrAux]
    | succ j =>
      have hj : j < ys.length := Nat.lt_of_succ_lt_succ h
      simpa [mrAux] using ih y j hj

/-- Entry `i ≥ 1` of the MR column is `|value[i] - value[i-1]|`. -/
theorem movingRanges_get (l : List ℚ) (i : ℕ) (h1 : 1 ≤ i) (h : i < l.length) :
    (movingRanges l)[i]? =
      some (some |l.get ⟨i, h⟩ -
        l.get ⟨i - 1, Nat.lt_of_le_of_lt (Nat.sub_le i 1) h⟩|) := by
  cases l with
  | nil => exact absurd h (Nat.not_lt_zero i)
  | cons x xs =>
    cases i with
    | zero => exact absurd h1 (by omega)
    | succ j =>
      have hj : j < xs.length := Nat.lt_of_succ_lt_succ h
      simpa [movingRanges] using mrAux_get xs x j hj

/-- C1: for a series of at least 2 observations sorted ascending by date,
`plot_imr_combined` produces the MR column with entry `i ≥ 1` equal to
`|value[i] - value[i-1]|` and an undefined entry at position 0, the center
as the mean of the values, `mrMean` as the mean of the `n - 1` moving
ranges, `UCL_I = center + 2.66 * mrMean`, `LCL_I = center - 2.66 * mrMean`
clamped to a minimum of 0, and `UCL_MR = 3.267 * mrMean`. -/
theorem imr_formulas (s : List Obs) (h2 : 2 ≤ s.length)
    (hs : List.Sorted dateLE s) :
    (plot_imr_combined s).mrList.length = s.length ∧
    (plot_imr_combined s).mrList[0]? = some none ∧
    (∀ i : ℕ, 1 ≤ i → ∀ h : i < s.length,
      (plot_imr_combined s).mrList[i]? =
        some (some |(s.get ⟨i, h⟩).2 -
          (s.get ⟨i - 1, Nat.lt_of_le_of_lt (Nat.sub_le i 1) h⟩).2|)) ∧
    (plot_imr_combined s).center = (s.map Prod.snd).sum / (s.length : ℚ) ∧
    (plot_imr_combined s).mrList.reduceOption.length = s.length - 1 ∧
    (plot_imr_combined s).mrBar =
      (plot_imr_combined s).mrList.reduceOption.sum / ((s.length - 1 : ℕ) : ℚ) ∧
    (plot_imr_combined s).ucl_i =
      (plot_imr_combined s).center + (266 / 100) * (plot_imr_combined s).mrBar ∧
    (plot_imr_combined s).lcl_i =
      max 0 ((plot_imr_combined s).center -
        (266 / 100) * (plot_imr_combined s).mrBar) ∧
    (plot_imr_combined s).ucl_mr = (3267 / 1000) * (plot_imr_combined s).mrBar := by
  have hsort : sortByDate s = s := hs.insertionSort_eq
  refine ⟨?_, ?_, ?_, ?_, ?_, ?_, rfl, rfl, mul_comm (plot_imr_combined s).mrBar _⟩
  · simp [plot_imr_combined, hsort, movingRanges_length]
  · cases s with
    | nil => simp at h2
    | cons a as => simp [plot_imr_combined, hsort, movingRanges]
  · intro i h1 h
    have h' : i < (s.map Prod.snd).length := by simpa using h
    simp only [plot_imr_combined, hsort]
    rw [movingRanges_get (s.map Prod.snd) i h1 h']
    simp [List.getElem_map]
  · simp [plot_imr_combined, hsort, qmean]
  · simp [plot_imr_combined, hsort, movingRanges_reduceOption_length]
  · simp [plot_imr_combined, hsort, qmean, movingRanges_reduceOption_length]

/-- C1 at the worked example: the series [100, 102, 101, 105, 103] has
center 102.2, moving ranges [2, 1, 4, 2], mrMean 2.25, UCL_I 108.185 and
LCL_I 96.215. -/
theorem imr_formulas_check :
    (2 ≤ exObs.length ∧ List.Sorted dateLE exObs) ∧
    (plot_imr_combined exObs).center = (exObs.map Prod.snd).sum / (exObs.length : ℚ) ∧
    (plot_imr_combined exObs).center = 511 / 5 ∧
    (plot_imr_combined exObs).mrList.reduceOption = [2, 1, 4, 2] ∧
    (plot_imr_combined exObs).mrBar = 9 / 4 ∧
    (plot_imr_combined exObs).ucl_i = 21637 / 200 ∧
    (plot_imr_combined exObs).lcl_i = 19243 / 200 :=
  ⟨⟨by decide, by decide⟩,
   (imr_formulas exObs (by decide) (by decide)).2.2.2.1,
   by
     have hsort : sortByDate exObs =
         [(1, 100), (2, 102), (3, 101), (4, 105), (5, 103)] := rfl
     norm_num [plot_imr_combined, hsort, qmean, movingRanges, mrAux, abs,
       List.reduceOption, List.filterMap_cons]⟩

/-- C3: the analysis guard yields an explicitly absent I-MR result for a
series of fewer than 2 observations; no NaN limit is propagated. -/
theorem imr_absent_insufficient (df : List Obs) (h : df.length < 2) :
    weight_analysis df = none := by
  unfold weight_analysis
  rw [if_neg]
  rintro ⟨-, h2⟩
  omega

/-- C3 at the singleton series [(d1, 150.0)]: the I-MR result is absent. -/
theorem imr_absent_insufficient_check :
    ex1.length < 2 ∧ weight_analysis ex1 = none :=
  ⟨by decide, imr_absent_insufficient ex1 (by decide)⟩

/-- Rows sorted weakly by date with pairwise-distinct dates are sorted
strictly by date. -/
theorem sorted_dateLT_of_nodup {l : List Obs} (hs : List.Sorted dateLE l)
    (hd : (l.map Prod.fst).Nodup) : List.Sorted dateLT l := by
  have hne : List.Pairwise (fun a b : Obs => a.1 ≠ b.1) l := List.pairwise_map.mp hd
  exact (hs.and hne).imp fun h => Nat.lt_of_le_of_ne h.1 h.2

/-- C7: on a series with pairwise-distinct dates, any permutation of the
input rows yields the identical ControlLimitSet, because the engine sorts
by date first. -/
theorem imr_perm_invariant (s t : List Obs) (hd : (s.map Prod.fst).Nodup)
    (hp : s.Perm t) : plot_imr_combined s = plot_imr_combined t := by
  have hps : (sortByDate s).Perm s := List.perm_insertionSort dateLE s
  have hpt : (sortByDate t).Perm t := List.perm_insertionSort dateLE t
  have hperm : (sortByDate s).Perm (sortByDate t) := hps.trans (hp.trans hpt.symm)
  have hds : ((sortByDate s).map Prod.fst).Nodup :=
    ((hps.map Prod.fst).nodup_iff).mpr hd
  have hdt : ((sortByDate t).map Prod.fst).Nodup :=
    ((hpt.map Prod.fst).nodup_iff).mpr (((hp.map Prod.fst).nodup_iff).mp hd)
  have hsort : sortByDate s = sortByDate t :=
    List.eq_of_perm_of_sorted hperm
      (sorted_dateLT_of_nodup (List.sorted_insertionSort dateLE s) hds)
      (sorted_dateLT_of_nodup (List.sorted_insertionSort dateLE t) hdt)
  unfold plot_imr_combined
  rw [hsort]

/-- C7 at a concrete pair of permutations of a two-row series. -/
theorem imr_perm_invariant_check :
    (s7.map Prod.fst).Nodup ∧ s7.Perm t7 ∧
      plot_imr_combined s7 = plot_imr_combined t7 :=
  ⟨by decide, List.Perm.swap (2, 102) (1, 100) [],
   imr_perm_invariant s7 t7 (by decide) (List.Perm.swap (2, 102) (1, 100) [])⟩

/-- C8: running `plot_imr_combined` leaves the caller's data frame
untouched: `sort_values` copies, and the MR column is written onto the
copy, so the object at the caller's address is bitwise unchanged. -/
theorem imr_no_caller_mutation (h0 : Heap) (callerAddr freshAddr : ℕ)
    (hne : freshAddr ≠ callerAddr) :
    (plot_imr_run h0 callerAddr freshAddr).1 callerAddr = h0 callerAddr := by
  simp [plot_imr_run, heapUpdate, Ne.symm hne]

/-- C8 at a concrete heap holding the worked-example series. -/
theorem imr_no_caller_mutation_check :
    (1 : ℕ) ≠ 0 ∧ (plot_imr_run heap8 0 1).1 0 = heap8 0 :=
  ⟨by decide, imr_no_caller_mutation heap8 0 1 (by decide)⟩

/-- C9 fails on the code: for the possibly-negative series
[(1, -10), (2, -12)] the code still clamps, returning LCL_I = 0 instead of
the unclamped center - 2.66 * mrMean = -16.32. -/
theorem lclClampCounterexample :
    (plot_imr_combined exNeg).lcl_i = 0 ∧
    (plot_imr_combined exNeg).lcl_i ≠
      (plot_imr_combined exNeg).center -
        (266 / 100) * (plot_imr_combined exNeg).mrBar := by
  have hsort : sortByDate exNeg = [(1, -10), (2, -12)] := rfl
  norm_num [plot_imr_combined, hsort, qmean, movingRanges, mrAux, abs,
    List.reduceOption, List.filterMap_cons]

/-- C9 amended: the clamp of LCL_I to a minimum of 0 is hard-coded in
`plot_imr_combined` for every metric; whenever the unclamped value is
negative the code returns 0. -/
theorem lcl_clamp_hardcoded (s : List Obs) :
    (plot_imr_combined s).lcl_i =
      max 0 ((plot_imr_combined s).center -
        (266 / 100) * (plot_imr_combined s).mrBar) ∧
    ((plot_imr_combined s).center -
        (266 / 100) * (plot_imr_combined s).mrBar < 0 →
      (plot_imr_combined s).lcl_i = 0) := by
  constructor
  · rfl
  · intro h
    have : (plot_imr_combined s).lcl_i =
        max 0 ((plot_imr_combined s).center -
          (266 / 100) * (plot_imr_combined s).mrBar) := rfl
    rw [this, max_eq_left (le_of_lt h)]

/-- C9 amended claim at the negative-metric series: the unclamped lower
limit is negative and the code returns 0. -/
theorem lcl_clamp_hardcoded_check :
    (plot_imr_combined exNeg).center -
        (266 / 100) * (plot_imr_combined exNeg).mrBar < 0 ∧
      (plot_imr_combined exNeg).lcl_i = 0 := by
  have hneg : (plot_imr_combined exNeg).center -
      (266 / 100) * (plot_imr_combined exNeg).mrBar < 0 := by
    have hsort : sortByDate exNeg = [(1, -10), (2, -12)] := rfl
    norm_num [plot_imr_combined, hsort, qmean, movingRanges, mrAux, abs,
      List.reduceOption, List.filterMap_cons]
  exact ⟨hneg, (lcl_clamp_hardcoded exNeg).2 hneg⟩

/-- The sample standard deviation is a square root, hence nonnegative, so a
nonzero one is positive. -/
theorem sampleStd_pos_of_ne {l : List ℝ} (h : sampleStd l ≠ 0) : 0 < sampleStd l :=
  lt_of_le_of_ne (Real.sqrt_nonneg _) (Ne.symm h)

/-- Unfolding of `calculate_capability` on a sufficient series with nonzero
spread. -/
theorem capability_unfold (l : List ℝ) (lsl usl : ℝ) (h5 : 5 ≤ l.length)
    (hσ : sampleStd l ≠ 0) :
    calculate_capability l lsl usl =
      (some (round2 ((usl - lsl) / (6 * sampleStd l))),
       some (round2 (min ((usl - rmean l) / (3 * sampleStd l))
                        ((rmean l - lsl) / (3 * sampleStd l))))) := by
  simp [calculate_capability, hσ, Nat.not_lt.mpr h5]

/-- Round-to-2-places of any value within half a cent of `k / 100`. -/
theorem round2_eq (x : ℝ) (k : ℤ) (h1 : (k : ℝ) - 1 / 2 ≤ x * 100)
    (h2 : x * 100 < (k : ℝ) + 1 / 2) : round2 x = (k : ℝ) / 100 := by
  have hr : round (x * 100) = k := by
    rw [round_eq, Int.floor_eq_iff]
    constructor
    · linarith
    · linarith
  unfold round2
  rw [hr]

/-- Rounding to 2 decimal places is monotone. -/
theorem round2_mono {x y : ℝ} (h : x ≤ y) : round2 x ≤ round2 y := by
  unfold round2
  have hi : round (x * 100) ≤ round (y * 100) := by
    rw [round_eq, round_eq]
    exact Int.floor_mono (by linarith)
  exact (div_le_div_iff_of_pos_right (by norm_num : (0 : ℝ) < 100)).mpr (Int.cast_le.mpr hi)

/-- Rounding zero gives zero. -/
theorem round2_zero : round2 0 = 0 := by
  unfold round2
  norm_num

/-- The mean of the worked-example values is 102.2. -/
theorem rmean_exVals : rmean exVals = 511 / 5 := by
  norm_num [rmean, exVals]

/-- The sample variance of the worked-example values is 3.7. -/
theorem sampleVar_exVals : sampleVar exVals = 37 / 10 := by
  unfold sampleVar
  rw [rmean_exVals]
  norm_num [exVals]

/-- Lower bound on the worked-example sample standard deviation √3.7. -/
theorem sampleStd_exVals_lb : (1.9235 : ℝ) < sampleStd exVals := by
  unfold sampleStd
  rw [sampleVar_exVals]
  exact (Real.lt_sqrt (by norm_num)).mpr (by norm_num)

/-- Upper bound on the worked-example sample standard deviation √3.7. -/
theorem sampleStd_exVals_ub : sampleStd exVals < (1.9236 : ℝ) := by
  unfold sampleStd
  rw [sampleVar_exVals]
  exact (Real.sqrt_lt' (by norm_num)).mpr (by norm_num)

/-- The worked-example sample standard deviation is nonzero. -/
theorem sampleStd_exVals_ne : sampleStd exVals ≠ 0 := by
  intro h0
  have h := sampleStd_exVals_lb
  rw [h0] at h
  norm_num at h

/-- The constant example series has sample standard deviation zero. -/
theorem sampleStd_ex150 : sampleStd ex150 = 0 := by
  have hm : rmean ex150 = 150 := by norm_num [rmean, ex150]
  have hv : sampleVar ex150 = 0 := by
    unfold sampleVar
    rw [hm]
    norm_num [ex150]
  unfold sampleStd
  rw [hv, Real.sqrt_zero]

/-- C4: fewer than 5 observations make the capability computation return
the explicitly absent pair `(None, None)`. -/
theorem capability_insufficient (l : List ℝ) (lsl usl : ℝ) (h : l.length < 5) :
    calculate_capability l lsl usl = (none, none) := by
  simp [calculate_capability, h]

/-- C4 at a 4-point series with lsl = 140 and usl = 160. -/
theorem capability_insufficient_check :
    ex4.length < 5 ∧ calculate_capability ex4 140 160 = (none, none) :=
  ⟨by norm_num [ex4], capability_insufficient ex4 140 160 (by norm_num [ex4])⟩

/-- C5: a zero sample standard deviation makes the capability computation
return `(0, 0)` instead of failing on a division by zero. -/
theorem capability_zero_sigma (l : List ℝ) (lsl usl : ℝ) (h5 : 5 ≤ l.length)
    (h0 : sampleStd l = 0) :
    calculate_capability l lsl usl = (some 0, some 0) := by
  simp [calculate_capability, h0, Nat.not_lt.mpr h5]

/-- C5 at the constant series [150, 150, 150, 150, 150] with lsl = 140 and
usl = 160. -/
theorem capability_zero_sigma_check :
    5 ≤ ex150.length ∧ sampleStd ex150 = 0 ∧
      calculate_capability ex150 140 160 = (some 0, some 0) :=
  ⟨by norm_num [ex150], sampleStd_ex150,
   capability_zero_sigma ex150 140 160 (by norm_num [ex150]) sampleStd_ex150⟩

/-- C2 amended: on a series of at least 5 observations with nonzero sample
standard deviation and spec limits lsl < usl, `calculate_capability`
returns `Cp = (usl - lsl) / (6 sigma)` and
`Cpk = min((usl - mean) / (3 sigma), (mean - lsl) / (3 sigma))`, each
rounded to 2 decimal places. -/
theorem capability_formulas (l : List ℝ) (lsl usl : ℝ) (h5 : 5 ≤ l.length)
    (hσ : sampleStd l ≠ 0) (hlim : lsl < usl) :
    calculate_capability l lsl usl =
      (some (round2 ((usl - lsl) / (6 * sampleStd l))),
       some (round2 (min ((usl - rmean l) / (3 * sampleStd l))
                        ((rmean l - lsl) / (3 * sampleStd l))))) :=
  capability_unfold l lsl usl h5 hσ

/-- C2 amended claim at the worked example. -/
theorem capability_formulas_check :
    (5 ≤ exVals.length ∧ sampleStd exVals ≠ 0 ∧ (95 : ℝ) < 110) ∧
    calculate_capability exVals 95 110 =
      (some (round2 ((110 - 95) / (6 * sampleStd exVals))),
       some (round2 (min ((110 - rmean exVals) / (3 * sampleStd exVals))
                        ((rmean exVals - 95) / (3 * sampleStd exVals))))) :=
  ⟨⟨by norm_num [exVals], sampleStd_exVals_ne, by norm_num⟩,
   capability_formulas exVals 95 110 (by norm_num [exVals]) sampleStd_exVals_ne
     (by norm_num)⟩

/-- C2 fails on the code at its own worked example: with sample standard
deviation √3.7 ≈ 1.9235, the series [100, 102, 101, 105, 103] with lsl = 95
and usl = 110 yields Cp = 1.30 and Cpk = 1.25, not the claimed 1.40 and
1.34. -/
theorem capabilityExampleCounterexample :
    calculate_capability exVals 95 110 = (some (13 / 10), some (5 / 4)) ∧
    calculate_capability exVals 95 110 ≠ (some (7 / 5), some (67 / 50)) := by
  have hσ := sampleStd_exVals_ne
  have hpos : 0 < sampleStd exVals := sampleStd_pos_of_ne hσ
  have hlb := sampleStd_exVals_lb
  have hub := sampleStd_exVals_ub
  set r := sampleStd exVals with hr
  have hmain : calculate_capability exVals 95 110 = (some (13 / 10), some (5 / 4)) := by
    rw [capability_unfold exVals 95 110 (by norm_num [exVals]) hσ, rmean_exVals]
    have hcp : round2 (((110 : ℝ) - 95) / (6 * r)) = ((130 : ℤ) : ℝ) / 100 := by
      have hx : ((110 : ℝ) - 95) / (6 * r) * 100 = 250 / r := by
        field_simp
        ring
      apply round2_eq
      · rw [hx, le_div_iff₀ hpos]
        push_cast
        linarith
      · rw [hx, div_lt_iff₀ hpos]
        push_cast
        linarith
    have h3 : (0 : ℝ) < 3 * r := by linarith
    have hmin : min (((110 : ℝ) - 511 / 5) / (3 * r)) ((511 / 5 - 95) / (3 * r)) =
        ((511 : ℝ) / 5 - 95) / (3 * r) := by
      apply min_eq_right
      exact (div_le_div_iff_of_pos_right h3).mpr (by norm_num)
    have hcpk : round2 (((511 : ℝ) / 5 - 95) / (3 * r)) = ((125 : ℤ) : ℝ) / 100 := by
      have hx : ((511 : ℝ) / 5 - 95) / (3 * r) * 100 = 240 / r := by
        field_simp
        ring
      apply round2_eq
      · rw [hx, le_div_iff₀ hpos]
        push_cast
        linarith
      · rw [hx, div_lt_iff₀ hpos]
        push_cast
        linarith
    rw [hmin, hcp, hcpk]
    norm_num
  refine ⟨hmain, ?_⟩
  rw [hmain]
  intro h
  rw [Prod.mk.injEq] at h
  norm_num at h

/-- C6 amended: `calculate_capability` performs no validation of the spec
limits; for lsl ≥ usl on a sufficient series with nonzero spread it still
returns capability numbers, with a nonpositive Cp. -/
theorem capability_no_speccheck (l : List ℝ) (lsl usl : ℝ) (h5 : 5 ≤ l.length)
    (hσ : sampleStd l ≠ 0) (hle : usl ≤ lsl) :
    ∃ c k : ℝ, calculate_capability l lsl usl = (some c, some k) ∧ c ≤ 0 := by
  have hpos : 0 < sampleStd l := sampleStd_pos_of_ne hσ
  refine ⟨_, _, capability_unfold l lsl usl h5 hσ, ?_⟩
  have hcp : (usl - lsl) / (6 * sampleStd l) ≤ 0 :=
    div_nonpos_iff.mpr (Or.inr ⟨by linarith, by linarith⟩)
  calc round2 ((usl - lsl) / (6 * sampleStd l)) ≤ round2 0 := round2_mono hcp
    _ = 0 := round2_zero

/-- C6 fails on the code: with lsl = 110 ≥ usl = 95 the computation is not
rejected; a Cp value is produced. -/
theorem capabilityNoSpecCheckCounterexample :
    (95 : ℝ) ≤ 110 ∧ (calculate_capability exVals 110 95).1 ≠ none := by
  refine ⟨by norm_num, ?_⟩
  rw [capability_unfold exVals 110 95 (by norm_num [exVals]) sampleStd_exVals_ne]
  simp

/-- C6 amended claim at the worked example with inverted limits. -/
theorem capability_no_speccheck_check :
    (5 ≤ exVals.length ∧ sampleStd exVals ≠ 0 ∧ (95 : ℝ) ≤ 110) ∧
    ∃ c k : ℝ, calculate_capability exVals 110 95 = (some c, some k) ∧ c ≤ 0 :=
  ⟨⟨by norm_num [exVals], sampleStd_exVals_ne, by norm_num⟩,
   capability_no_speccheck exVals 110 95 (by norm_num [exVals]) sampleStd_exVals_ne
     (by norm_num)⟩

/-- C10: on a sufficient series with nonzero spread the returned rounded
Cpk never exceeds the returned rounded Cp, since
`Cpk = min(Cpu, Cpl) ≤ (Cpu + Cpl) / 2 = Cp` and rounding is monotone. -/
theorem cpk_le_cp (l : List ℝ) (lsl usl : ℝ) (h5 : 5 ≤ l.length)
    (hσ : sampleStd l ≠ 0) :
    ∃ c k : ℝ, calculate_capability l lsl usl = (some c, some k) ∧ k ≤ c := by
  have hpos : 0 < sampleStd l := sampleStd_pos_of_ne hσ
  refine ⟨_, _, capability_unfold l lsl usl h5 hσ, round2_mono ?_⟩
  have hmid : ((usl - rmean l) / (3 * sampleStd l) +
      (rmean l - lsl) / (3 * sampleStd l)) / 2 =
      (usl - lsl) / (6 * sampleStd l) := by
    rw [div_add_div_same, div_div]
    have hnum : usl - rmean l + (rmean l - lsl) = usl - lsl := by ring
    rw [hnum]
    congr 1
    ring
  have hminle : min ((usl - rmean l) / (3 * sampleStd l))
      ((rmean l - lsl) / (3 * sampleStd l)) ≤
      ((usl - rmean l) / (3 * sampleStd l) +
        (rmean l - lsl) / (3 * sampleStd l)) / 2 := by
    rcases le_total ((usl - rmean l) / (3 * sampleStd l))
        ((rmean l - lsl) / (3 * sampleStd l)) with h | h
    · rw [min_eq_left h]
      linarith
    · rw [min_eq_right h]
      linarith
  rw [hmid] at hminle
  exact hminle

/-- C10 at the worked example. -/
theorem cpk_le_cp_check :
    (5 ≤ exVals.length ∧ sampleStd exVals ≠ 0) ∧
    ∃ c k : ℝ, calculate_capability exVals 95 110 = (some c, some k) ∧ k ≤ c :=
  ⟨⟨by norm_num [exVals], sampleStd_exVals_ne⟩,
   cpk_le_cp exVals 95 110 (by norm_num [exVals]) sampleStd_exVals_ne⟩

end FitnessApp
